import Mathlib

/-!
Shallow embedding of the stream-literal template rendering engine
(src/src/index.js) together with the two-phase template-part variant
found alongside the tests, and proofs of the specified properties.

Values flowing through a template slot are modelled by the inductive
type `JSValue`.  A JavaScript object is modelled by the capabilities the
classifier in `renderValue` probes: whether it is an instance of the
host `Promise` class (and what it settles with), whether it carries a
`then` method (the structural thenable capability, which the code never
probes), whether it exposes the synchronous or asynchronous iteration
protocol (and the items iteration yields), and whether it carries the
template marker (and the `strings`/`values` pair underneath).  Because
resolution is strictly sequential and each branch is fully drained
before the next begins, the asynchronous generators of the source are
faithfully represented by functions producing the ordered list of text
chunks, with a thrown error represented by `Except.error`.
-/

/-- Primitive slot values: the cases of the source's `PrimitiveValue`
typedef apart from `null`/`undefined`, which are separate `JSValue`
constructors because `renderValue` tests them first. -/
inductive Prim : Type where
  | pBool (b : Bool)
  | pNum (n : Int)
  | pStr (s : String)
  | pBigInt (n : Int)
  | pSymbol (description : String)
deriving DecidableEq, Repr

/-- JavaScript `String(value)` on a primitive, as the source's
`String(value)` call in `renderValue` observes it: booleans print as
`true`/`false`, numbers and bigints in decimal, strings unchanged, and
a symbol with description `d` prints as `Symbol(d)`. -/
def primToString : Prim → String
  | .pBool true => "true"
  | .pBool false => "false"
  | .pNum n => toString n
  | .pStr s => s
  | .pBigInt n => toString n
  | .pSymbol d => "Symbol(" ++ d ++ ")"

/-- A value that can occupy a dynamic template slot.  The `vObject`
constructor records, in order: the settled value when the object is an
instance of the host `Promise` class (`none` otherwise), the value a
caller-authored `then` method would settle with (the structural
thenable capability), the items yielded when the object exposes the
synchronous iteration protocol, the items yielded when it exposes the
asynchronous iteration protocol, and the `strings`/`values` pair when
the object carries the template marker.  A plain structured record is
`vObject none none none none none`.  `vFunction` carries the text
JavaScript string interpolation would produce for the callable. -/
inductive JSValue : Type where
  | vNull : JSValue
  | vUndefined : JSValue
  | vPrim (p : Prim) : JSValue
  | vFunction (text : String) : JSValue
  | vObject (promiseInst : Option JSValue) (thenable : Option JSValue)
      (iterItems : Option (List JSValue)) (asyncIterItems : Option (List JSValue))
      (templateData : Option (List String × List JSValue)) : JSValue

/-- Embedding of the exported `html` tag: it returns a plain object
carrying the template marker over the given `strings` and `values`,
with no other capability. -/
def html (strings : List String) (values : List JSValue) : JSValue :=
  .vObject none none none none (some (strings, values))

/-- A JavaScript array (or any sync-iterable collection) of the given
items: an object exposing only the synchronous iteration protocol. -/
def vArray (items : List JSValue) : JSValue :=
  .vObject none none (some items) none none

/-- A settled host `Promise` instance: it is an instance of `Promise`
(so `value instanceof Promise` holds) and, like every promise, also
exposes a `then` method. -/
def vPromiseOf (v : JSValue) : JSValue :=
  .vObject (some v) (some v) none none none

/-- Shorthand for a number slot value. -/
def vNum (n : Int) : JSValue := .vPrim (.pNum n)

/-- Shorthand for a string slot value. -/
def vStr (s : String) : JSValue := .vPrim (.pStr s)

/-- Source `isPrimitive`: true for `null` and for every value whose
`typeof` is neither `object` nor `function`. -/
def isPrimitive : JSValue → Bool
  | .vNull => true
  | .vUndefined => true
  | .vPrim _ => true
  | .vFunction _ => false
  | .vObject _ _ _ _ _ => false

/-- Source `isPromise`: the nominal check `value instanceof Promise`. -/
def isPromise : JSValue → Bool
  | .vObject (some _) _ _ _ _ => true
  | _ => false

/-- The structural deferred capability the spec's rationale describes
("is it thenable?"): the object exposes a `then` method.  The source
never probes this. -/
def isThenable : JSValue → Bool
  | .vObject _ (some _) _ _ _ => true
  | .vObject (some _) _ _ _ _ => true
  | _ => false

/-- Source `isIterable`: `Symbol.iterator in value`, a structural
capability probe. -/
def isIterable : JSValue → Bool
  | .vObject _ _ (some _) _ _ => true
  | _ => false

/-- Source `isAsyncIterable`: `Symbol.asyncIterator in value`. -/
def isAsyncIterable : JSValue → Bool
  | .vObject _ _ _ (some _) _ => true
  | _ => false

/-- Source `isTemplateResult`: a non-null object carrying the template
marker. -/
def isTemplateResult : JSValue → Bool
  | .vObject _ _ _ _ (some _) => true
  | _ => false

mutual

/-- Embedding of the source's `renderValue` generator: the ordered list
of chunks it yields, or the error it throws.  The branch order is
exactly the source's: `undefined`/`null` first, then `isPrimitive`
(suppressing an empty string), then for objects the chain `isPromise`,
`isIterable`, `isAsyncIterable`, `isTemplateResult` (an object matching
none of the four falls off the chain and yields nothing), and finally
the `throw` for any remaining value, which can only be a function. -/
def renderValue : JSValue → Except String (List String)
  | .vUndefined => .ok []
  | .vNull => .ok []
  | .vPrim p =>
      let str := primToString p
      .ok (if str = "" then [] else [str])
  | .vObject pi th it ait tm =>
      match pi with
      | some w => renderValue w
      | none =>
        match it with
        | some items => renderList items
        | none =>
          match ait with
          | some items => renderList items
          | none =>
            match tm with
            | some (ss, vs) => renderTemplate ss vs
            | none => .ok []
  | .vFunction text => .error ("Invalid template value: " ++ text)
termination_by v => sizeOf v

/-- The chunks produced by the `for ... of` / `for await ... of` loops
in `renderValue`: each item is recursively resolved and its chunks are
emitted before the next item is considered. -/
def renderList : List JSValue → Except String (List String)
  | [] => .ok []
  | v :: rest => do
      let a ← renderValue v
      let b ← renderList rest
      pure (a ++ b)
termination_by vs => sizeOf vs

/-- Embedding of the source's `renderTemplate` generator: for each
index `i` into `strings` it yields `strings[i]`, then, whenever
`i < values.length`, the chunks of `renderValue(values[i])`. -/
def renderTemplate : List String → List JSValue → Except String (List String)
  | [], _ => .ok []
  | s :: ss, [] => do
      let r ← renderTemplate ss []
      pure (s :: r)
  | s :: ss, v :: vs => do
      let c ← renderValue v
      let r ← renderTemplate ss vs
      pure (s :: (c ++ r))
termination_by ss vs => sizeOf ss + sizeOf vs

end

/-- The expected fragment/chunk interleaving of a template: fragment
`i`, then the chunks of slot `i`, then fragment `i+1`, and so on. -/
def interleave : List String → List (List String) → List String
  | [], _ => []
  | s :: ss, [] => s :: interleave ss []
  | s :: ss, cs :: css => s :: (cs ++ interleave ss css)

/-! ### The two-phase variant: `parseTemplate` + `renderTemplateParts`

This is the second source variant kept next to the tests: the static
fragments are first parsed into a parts list (a static part per
fragment, with a value part holding the slot index between consecutive
fragments), and the parts list is then rendered against the dynamic
values. -/

/-- A part of a parsed template: a static text fragment, or a reference
to the dynamic value at the given index. -/
inductive TemplatePart : Type where
  | staticPart (value : String)
  | valuePart (idx : Nat)
deriving DecidableEq, Repr

/-- The loop body of the variant's `parseTemplate`, carrying the
current index: every fragment becomes a static part, and every fragment
except the last is followed by a value part holding its index. -/
def parseTemplateGo : List String → Nat → List TemplatePart
  | [], _ => []
  | [s], _ => [.staticPart s]
  | s :: ss, i => .staticPart s :: .valuePart i :: parseTemplateGo ss (i + 1)

/-- Embedding of the variant's exported `parseTemplate` applied to the
static fragments. -/
def parseTemplate (strings : List String) : List TemplatePart :=
  parseTemplateGo strings 0

/-- Embedding of the variant's `renderTemplateParts`: a static part
yields its text, and a value part yields the chunks of
`renderValue(values[part.idx])` (an out-of-range index reads
`undefined` in JavaScript, hence the `getD` default). -/
def renderTemplateParts (parts : List TemplatePart) (values : List JSValue) :
    Except String (List String) :=
  match parts with
  | [] => .ok []
  | .staticPart s :: rest => do
      let r ← renderTemplateParts rest values
      pure (s :: r)
  | .valuePart i :: rest => do
      let c ← renderValue (values.getD i .vUndefined)
      let r ← renderTemplateParts rest values
      pure (c ++ r)

/-! ### Render entry point and component invoker

The `render` export of src/src/index.js wraps `renderTemplate` of a
template descriptor in a `ReadableStream` whose `start` callback drains
the generator in order; the stream's chunk sequence is therefore
exactly the generator's chunk sequence, which the embedding returns
directly.  The component call shape is exercised by the repository's
tests and declared by its `Component`/`ComponentOutput` typedefs but
its implementation is not in src/src/index.js, so it is modelled from
the spec below. -/

/-- A properties record passed to a component, opaque to this core. -/
def Props : Type := List (String × JSValue)

/-- A component: a callable from a properties record to its output
value, per the source's `Component` typedef. -/
def Component : Type := Props → JSValue

/-- Modelled from the spec: the component invoker's handling of a
synchronous or asynchronous sequence of Template Descriptors — each
element must be a Template Descriptor and is expanded in order, the
chunks concatenated; an element that is not a template fails with the
fixed message `Invalid template.` (spec 4.3). -/
def renderTemplatesSeq : List JSValue → Except String (List String)
  | [] => .ok []
  | v :: rest =>
      match v with
      | .vObject _ _ _ _ (some (ss, vs)) => do
          let a ← renderTemplate ss vs
          let b ← renderTemplatesSeq rest
          pure (a ++ b)
      | _ => .error "Invalid template."

/-- Modelled from the spec: normalization of a component's return value
(spec 4.3), absent from src/src/index.js, whose tests and typedefs are
the only trace of it.  Absent output yields zero chunks; a Template
Descriptor is expanded; a deferred value is awaited and its settled
value re-classified; a synchronous or asynchronous sequence of
Template Descriptors is expanded element by element; anything else
fails with the fixed message `Invalid template.`. -/
def invokeOutput : JSValue → Except String (List String)
  | .vNull => .ok []
  | .vUndefined => .ok []
  | .vPrim _ => .error "Invalid template."
  | .vFunction _ => .error "Invalid template."
  | .vObject pi _ it ait tm =>
      match tm with
      | some (ss, vs) => renderTemplate ss vs
      | none =>
        match pi with
        | some w => invokeOutput w
        | none =>
          match it with
          | some items => renderTemplatesSeq items
          | none =>
            match ait with
            | some items => renderTemplatesSeq items
            | none => .error "Invalid template."
termination_by v => sizeOf v

/-- A renderable root: either a Template Descriptor directly, or a
component together with a properties record.  The spec's render entry
point accepts both call shapes. -/
inductive RenderInput : Type where
  | tmpl (v : JSValue)
  | comp (f : Component) (p : Props)

/-- The render entry point.  For a Template Descriptor it behaves as
src/src/index.js `render`: the returned stream's chunks are those of
`renderTemplate` over the descriptor's fragments and slot values
(destructuring a value without the marker faults in the host, modelled
as an error).  The component shape is modelled from the spec: the
component is called once with the properties record and its output is
normalized by `invokeOutput`. -/
def render : RenderInput → Except String (List String)
  | .tmpl (.vObject _ _ _ _ (some (ss, vs))) => renderTemplate ss vs
  | .tmpl _ => .error "TypeError"
  | .comp f p => invokeOutput (f p)

/-- The concatenation of a chunk list, as the consumer contract reads
it: joining all chunks in order yields the rendered text. -/
def concatChunks : List String → String
  | [] => ""
  | s :: rest => s ++ concatChunks rest

/-- The flattening of a list of chunk lists, in order. -/
def flattenChunks : List (List String) → List String
  | [] => []
  | cs :: rest => cs ++ flattenChunks rest

/-! ### Helper lemmas -/

theorem exceptBind_ok {α β ε : Type} (a : α) (f : α → Except ε β) :
    (Except.ok a >>= f : Except ε β) = f a := rfl

theorem exceptBind_error {α β ε : Type} (e : ε) (f : α → Except ε β) :
    (Except.error e >>= f : Except ε β) = Except.error e := rfl

theorem exceptPure_eq {α ε : Type} (a : α) : (pure a : Except ε α) = Except.ok a := rfl

theorem concatChunks_append (l₁ l₂ : List String) :
    concatChunks (l₁ ++ l₂) = concatChunks l₁ ++ concatChunks l₂ := by
  induction l₁ with
  | nil => simp [concatChunks]
  | cons s rest ih => simp [concatChunks, ih, String.append_assoc]

/-- If every item of a collection resolves to the corresponding chunk
list, the iteration loop of `renderValue` resolves to their ordered
flattening. -/
theorem renderList_ok {items : List JSValue} {chunkss : List (List String)}
    (h : List.Forall₂ (fun v cs => renderValue v = Except.ok cs) items chunkss) :
    renderList items = .ok (flattenChunks chunkss) := by
  induction h with
  | nil => simp [renderList, flattenChunks]
  | cons hv _ ih =>
      simp [renderList, flattenChunks, hv, ih, exceptBind_ok, exceptPure_eq]

/-- A template whose value list is exhausted emits the remaining
fragments, in order. -/
theorem renderTemplate_no_values (strings : List String) :
    renderTemplate strings [] = .ok (interleave strings []) := by
  induction strings with
  | nil => simp [renderTemplate, interleave]
  | cons s ss ih => simp [renderTemplate, interleave, ih, exceptBind_ok, exceptPure_eq]

/-- If every slot value resolves to the corresponding chunk list, the
template renderer emits exactly the fragment/chunk interleaving. -/
theorem renderTemplate_ok {values : List JSValue} {chunkss : List (List String)}
    (h : List.Forall₂ (fun v cs => renderValue v = Except.ok cs) values chunkss) :
    ∀ strings : List String,
      renderTemplate strings values = .ok (interleave strings chunkss) := by
  induction h with
  | nil => exact renderTemplate_no_values
  | cons hv _ ih =>
      intro strings
      cases strings with
      | nil => simp [renderTemplate, interleave]
      | cons s ss =>
          simp [renderTemplate, interleave, hv, ih ss, exceptBind_ok, exceptPure_eq]

/-! ### The claims -/

/-- C1: for every template with fragment sequence `[a, b, c]` and slot
values `[x, y]` (and in general N+1 fragments and N slots), draining
the resolved stream yields exactly the interleaving fragment 0, chunks
of slot 0, fragment 1, chunks of slot 1, ..., last fragment, with each
slot fully drained in place, for all resolvable slot values; the
concatenation of the three-fragment interleaving is exactly
`a ++ resolve x ++ b ++ resolve y ++ c`. -/
theorem renderTemplate_interleaves_fragments_and_slots
    (strings : List String) (values : List JSValue) (chunkss : List (List String))
    (hlen : strings.length = values.length + 1)
    (hres : List.Forall₂ (fun v cs => renderValue v = Except.ok cs) values chunkss) :
    renderTemplate strings values = .ok (interleave strings chunkss)
    ∧ ∀ a b c cx cy, concatChunks (interleave [a, b, c] [cx, cy]) =
        a ++ concatChunks cx ++ b ++ concatChunks cy ++ c := by
  refine ⟨renderTemplate_ok hres strings, ?_⟩
  intro a b c cx cy
  simp [interleave, concatChunks, concatChunks_append, String.append_assoc]

/-- Witness for C1 at fragments `["a", "b", "c"]` and slots `[1, 2]`. -/
theorem renderTemplate_interleaves_fragments_and_slots_witness :
    renderTemplate ["a", "b", "c"] [vNum 1, vNum 2] =
      .ok (interleave ["a", "b", "c"] [["1"], ["2"]]) := by
  have h := renderTemplate_interleaves_fragments_and_slots
    ["a", "b", "c"] [vNum 1, vNum 2] [["1"], ["2"]]
    (by simp)
    (by
      refine .cons ?_ (.cons ?_ .nil) <;>
        (simp [renderValue, vNum, primToString]; rfl))
  exact h.1

/-- C6: deferred transparency — resolving a deferred value that settles
with `v` produces exactly what resolving `v` directly produces;
`resolve (deferred 42)` yields the single chunk `42`; a deferred
template renders as the template does; and a nested deferred deferred
value is handled uniformly by the same recursive classification. -/
theorem deferred_transparency :
    (∀ v, renderValue (vPromiseOf v) = renderValue v)
    ∧ (∀ v, renderValue (vPromiseOf (vPromiseOf v)) = renderValue v)
    ∧ renderValue (vPromiseOf (vNum 42)) = .ok ["42"]
    ∧ (∀ strings values,
        renderValue (vPromiseOf (html strings values)) =
          renderValue (html strings values)) := by
  have h1 : ∀ v, renderValue (vPromiseOf v) = renderValue v := by
    intro v
    simp [renderValue, vPromiseOf]
  refine ⟨h1, fun v => by rw [h1, h1], ?_, fun ss vs => h1 _⟩
  rw [h1]
  simp [renderValue, vNum, primToString]
  rfl

/-- C7: a finite synchronous collection is iterated in order, each
element recursively resolved and fully emitted before the next, and
nesting flattens losslessly to arbitrary depth with order preserved:
`resolve [1, [[2, 3], 4]]` emits chunks concatenating to `1234`. -/
theorem sync_collection_flattens_in_order
    (items : List JSValue) (chunkss : List (List String))
    (hres : List.Forall₂ (fun v cs => renderValue v = Except.ok cs) items chunkss) :
    renderValue (vArray items) = .ok (flattenChunks chunkss)
    ∧ renderValue (vArray [vNum 1, vArray [vArray [vNum 2, vNum 3], vNum 4]]) =
        .ok ["1", "2", "3", "4"]
    ∧ concatChunks ["1", "2", "3", "4"] = "1234" := by
  refine ⟨?_, ?_, rfl⟩
  · simp only [vArray, renderValue]
    exact renderList_ok hres
  · simp [renderValue, renderList, vArray, vNum, primToString, exceptBind_ok, exceptPure_eq]
    rfl

/-- Witness for C7 at the collection `[7, [8]]`. -/
theorem sync_collection_flattens_in_order_witness :
    renderValue (vArray [vNum 7, vArray [vNum 8]]) =
      .ok (flattenChunks [["7"], ["8"]]) := by
  have h := sync_collection_flattens_in_order [vNum 7, vArray [vNum 8]] [["7"], ["8"]]
    (by
      refine .cons ?_ (.cons ?_ .nil)
      · simp [renderValue, vNum, primToString]; rfl
      · simp [renderValue, renderList, vArray, vNum, primToString,
          exceptBind_ok, exceptPure_eq]; rfl)
  exact h.1

/-- C8: a primitive resolves to exactly one chunk equal to its
canonical textual representation — `42`, `true`, `x`, and a symbol
with description `hello world` to `Symbol(hello world)` — except that
an empty representation is suppressed to zero chunks, which leaves the
concatenated result unchanged. -/
theorem primitive_single_chunk_canonical :
    (∀ p : Prim, renderValue (.vPrim p) =
        .ok (if primToString p = "" then [] else [primToString p]))
    ∧ (∀ p : Prim,
        concatChunks (if primToString p = "" then [] else [primToString p]) =
          primToString p)
    ∧ renderValue (vNum 42) = .ok ["42"]
    ∧ renderValue (.vPrim (.pBool true)) = .ok ["true"]
    ∧ renderValue (.vPrim (.pStr "x")) = .ok ["x"]
    ∧ renderValue (.vPrim (.pSymbol "hello world")) = .ok ["Symbol(hello world)"] := by
  refine ⟨fun p => by simp [renderValue], fun p => ?_, ?_, ?_, ?_, ?_⟩
  · split
    · rename_i h
      simp [concatChunks, h]
    · simp [concatChunks]
  · simp [renderValue, vNum, primToString]; rfl
  · simp [renderValue, primToString]
  · simp [renderValue, primToString]
  · simp [renderValue, primToString]

/-- Counterexample to C3 as stated: a plain structured record — an
object with no promise, iteration, or template-marker capability — does
NOT fail when resolved; `renderValue` lets it fall off the end of its
classification chain and the branch succeeds with zero chunks. -/
theorem plain_record_slot_resolves_without_error :
    renderValue (.vObject none none none none none) = .ok [] := by
  simp [renderValue]

/-- C3 as amended: only a bare callable placed directly in a slot
fails, with an error message identifying the offending value; a plain
structured record matching none of the accepted shapes is silently
skipped, producing zero chunks; and template construction performs no
validation at all — `html` is a total pairing of the fragments with
the slot values. -/
theorem invalid_slot_callable_errors_record_skipped :
    (∀ text, renderValue (.vFunction text) =
        .error ("Invalid template value: " ++ text))
    ∧ (∀ th, renderValue (.vObject none th none none none) = .ok [])
    ∧ (∀ strings values,
        html strings values = .vObject none none none none (some (strings, values))) := by
  refine ⟨fun text => by simp [renderValue], fun th => by simp [renderValue], fun ss vs => rfl⟩

/-- Counterexample to C4 as stated: a value carrying both the template
marker and the synchronous iteration capability is iterated as a
collection, not expanded as a template — its iteration items, not its
fragments, are emitted. -/
theorem marked_iterable_is_iterated_not_expanded :
    renderValue (.vObject none none (some [vStr "A"]) none (some (["B"], []))) = .ok ["A"]
    ∧ renderTemplate ["B"] [] = .ok ["B"]
    ∧ renderValue (.vObject none none (some [vStr "A"]) none (some (["B"], []))) ≠
        renderTemplate ["B"] [] := by
  have h1 : renderValue (.vObject none none (some [vStr "A"]) none (some (["B"], []))) =
      .ok ["A"] := by
    simp [renderValue, renderList, vStr, primToString, exceptBind_ok, exceptPure_eq]
  have h2 : renderTemplate ["B"] [] = .ok ["B"] := by
    simp [renderTemplate, exceptBind_ok, exceptPure_eq]
  refine ⟨h1, h2, ?_⟩
  rw [h1, h2]
  simp

/-- C4 as amended: classification is first-match-wins in the order
absent, primitive, deferred, synchronous collection, asynchronous
sequence, Template Descriptor — the iteration probes come BEFORE the
template-marker probe, so a value that both carries the template marker
and is synchronously iterable is iterated as a collection, not expanded
as a template. -/
theorem classification_first_match_order :
    renderValue .vNull = .ok []
    ∧ renderValue .vUndefined = .ok []
    ∧ (∀ p, renderValue (.vPrim p) =
        .ok (if primToString p = "" then [] else [primToString p]))
    ∧ (∀ w th it ait tm, renderValue (.vObject (some w) th it ait tm) = renderValue w)
    ∧ (∀ th items ait tm,
        renderValue (.vObject none th (some items) ait tm) = renderList items)
    ∧ (∀ th items tm,
        renderValue (.vObject none th none (some items) tm) = renderList items)
    ∧ (∀ th ss vs,
        renderValue (.vObject none th none none (some (ss, vs))) = renderTemplate ss vs) := by
  refine ⟨by simp [renderValue], by simp [renderValue], fun p => by simp [renderValue],
    fun w th it ait tm => by simp [renderValue],
    fun th items ait tm => by simp [renderValue],
    fun th items tm => by simp [renderValue],
    fun th ss vs => by simp [renderValue]⟩

/-- Counterexample to C5 as stated: a caller-authored object exposing
the deferred capability (it is thenable) but not an instance of the
host Promise class is NOT treated as a deferred value: resolving it
yields zero chunks instead of the chunks of its settled value. -/
theorem custom_thenable_not_treated_as_deferred :
    isThenable (.vObject none (some (vNum 42)) none none none) = true
    ∧ isPromise (.vObject none (some (vNum 42)) none none none) = false
    ∧ renderValue (.vObject none (some (vNum 42)) none none none) = .ok []
    ∧ renderValue (vNum 42) = .ok ["42"] := by
  refine ⟨rfl, rfl, by simp [renderValue], ?_⟩
  simp [renderValue, vNum, primToString]
  rfl

/-- C5 as amended: the deferred classification is nominal — only an
instance of the host Promise class (`isPromise`) is awaited, and a
caller-authored thenable that is not such an instance is not treated
as deferred (with no other capability it resolves to zero chunks) —
while the collection classification is structural: any object exposing
the iteration capability (`isIterable`) is iterated without
registration, whatever else it is. -/
theorem deferred_nominal_iterable_structural :
    (∀ settled, isThenable (.vObject none (some settled) none none none) = true
      ∧ isPromise (.vObject none (some settled) none none none) = false
      ∧ renderValue (.vObject none (some settled) none none none) = .ok [])
    ∧ (∀ w th it ait tm, isPromise (.vObject (some w) th it ait tm) = true
      ∧ renderValue (.vObject (some w) th it ait tm) = renderValue w)
    ∧ (∀ th items, isIterable (.vObject none th (some items) none none) = true
      ∧ renderValue (.vObject none th (some items) none none) = renderList items) := by
  refine ⟨fun settled => ⟨rfl, rfl, by simp [renderValue]⟩,
    fun w th it ait tm => ⟨rfl, by simp [renderValue]⟩,
    fun th items => ⟨rfl, by simp [renderValue]⟩⟩

/-- C2: the render entry point supports both call shapes — given a
Template Descriptor it returns the stream of its rendered chunks, and
given a component plus a properties record it calls the component with
the properties record and returns the stream of the rendered component
output; both roots render successfully for valid inputs.  The
component shape is modelled from the spec, its implementation being
absent from src/src/index.js. -/
theorem render_supports_template_and_component_roots
    (ss : List String) (vs : List JSValue) (cs : List String)
    (f : Component) (p : Props)
    (hok : renderTemplate ss vs = Except.ok cs) :
    render (.tmpl (html ss vs)) = .ok cs
    ∧ render (.comp f p) = invokeOutput (f p)
    ∧ (f p = html ss vs → render (.comp f p) = .ok cs) := by
  refine ⟨?_, rfl, ?_⟩
  · simpa [render, html] using hok
  · intro hf
    simp [render, hf, invokeOutput, html, hok]

/-- Witness for C2: both call shapes at a concrete template and a
concrete component returning it. -/
theorem render_supports_template_and_component_roots_witness :
    render (.tmpl (html ["Hello ", "!"] [vStr "world"])) =
      Except.ok ["Hello ", "world", "!"]
    ∧ render (.comp (fun _ => html ["Hello ", "!"] [vStr "world"]) []) =
      Except.ok ["Hello ", "world", "!"] := by
  have h := render_supports_template_and_component_roots
    ["Hello ", "!"] [vStr "world"] ["Hello ", "world", "!"]
    (fun _ => html ["Hello ", "!"] [vStr "world"]) []
    (by simp [renderTemplate, renderValue, vStr, primToString, exceptBind_ok, exceptPure_eq])
  exact ⟨h.1, h.2.2 rfl⟩

/-- Generalized equivalence for the two-phase renderer: rendering the
parts parsed from the remaining fragments, with value parts indexed
from `i`, is rendering those fragments against the values from
position `i` on, whenever the fragment count exceeds the remaining
value count by one. -/
theorem renderTemplateParts_go (values : List JSValue) :
    ∀ (ss : List String) (i : Nat), i + ss.length = values.length + 1 →
      renderTemplateParts (parseTemplateGo ss i) values =
        renderTemplate ss (values.drop i) := by
  intro ss
  induction ss with
  | nil =>
      intro i h
      simp [parseTemplateGo, renderTemplateParts, renderTemplate]
  | cons s ss ih =>
      intro i h
      cases ss with
      | nil =>
          have hi : i = values.length := by simpa using h
          subst hi
          simp [parseTemplateGo, renderTemplateParts, renderTemplate,
            List.drop_length, exceptBind_ok, exceptPure_eq]
      | cons s2 ss2 =>
          have hi : i < values.length := by
            simp at h
            omega
          have hdrop : values.drop i = values[i] :: values.drop (i + 1) :=
            List.drop_eq_getElem_cons hi
          have hgetD : values.getD i .vUndefined = values[i] :=
            List.getD_eq_getElem values .vUndefined hi
          have hrec := ih (i + 1) (by simp at h ⊢; omega)
          simp only [parseTemplateGo, renderTemplateParts, hgetD, hrec, hdrop,
            renderTemplate]
          cases renderValue values[i] with
          | error e => simp [exceptBind_error]
          | ok c =>
              cases renderTemplate (s2 :: ss2) (values.drop (i + 1)) with
              | error e => simp [exceptBind_ok, exceptBind_error]
              | ok r => simp [exceptBind_ok, exceptPure_eq]

/-- C10: for every template whose value list is one shorter than its
fragment list, the direct interleaving renderer (`renderTemplate` of
src/src/index.js) and the two-phase variant that first parses the
fragments into a parts list and then renders the parts
(`parseTemplate` followed by `renderTemplateParts`) produce identical
ordered chunk sequences. -/
theorem two_phase_renderer_equivalent
    (strings : List String) (values : List JSValue)
    (hlen : strings.length = values.length + 1) :
    renderTemplateParts (parseTemplate strings) values =
      renderTemplate strings values := by
  have h := renderTemplateParts_go values strings 0 (by simpa using hlen)
  simpa [parseTemplate] using h

/-- Witness for C10 at fragments `["a", "b", "c"]` and slots `[1, 2]`. -/
theorem two_phase_renderer_equivalent_witness :
    renderTemplateParts (parseTemplate ["a", "b", "c"]) [vNum 1, vNum 2] =
      renderTemplate ["a", "b", "c"] [vNum 1, vNum 2] :=
  two_phase_renderer_equivalent ["a", "b", "c"] [vNum 1, vNum 2] (by simp)
